import Mathlib

/-!
Verification of the RAGIFY document-analysis application (RAG retrieval
pipeline plus the React front end) against its natural-language
specification.

The repository ships the React front end (`src/components/*.tsx`,
`src/types/index.ts`) together with documentation of the FastAPI backend.
Front-end logic (the chat guard, the HNSW-error absorption in
`ChatInterface.tsx`, and the upload status polling loop in the
`FileUpload` component) is embedded directly from the TypeScript source.
The backend retrieval core (chunker, embedding service, ChromaDB vector
index, retriever) is documented but its Python sources are not part of the
repository; those components are modelled from the specification, as
marked on each definition.

Machine integers do not occur on the verified paths; chunk boundaries and
sizes are natural numbers, and embedding-vector components are modelled as
exact integers (only vector counts, lengths and membership matter to the
verified properties, never rounding).
-/

namespace Ragify

/-! ## Generic helpers -/

/-- Boolean analogue of chain-adjacency: `chainB R l` holds when every
pair of adjacent elements of `l` satisfies `R`.  Used to state properties
of consecutive chunks and of consecutive status transitions. -/
def chainB {α : Type} (R : α → α → Bool) : List α → Bool
  | [] => true
  | [_] => true
  | a :: b :: l => R a b && chainB R (b :: l)

/-- Character-list prefix test (used for substring search in error
messages, mirroring JavaScript `String.prototype.includes`). -/
def startsWithSeq : List Char → List Char → Bool
  | [], _ => true
  | _ :: _, [] => false
  | a :: as, b :: bs => a == b && startsWithSeq as bs

/-- Substring containment on character lists, mirroring the JavaScript
`errorMessage.includes(...)` tests in `ChatInterface.tsx`. -/
def containsSeq (pat : List Char) : List Char → Bool
  | [] => startsWithSeq pat []
  | c :: cs => startsWithSeq pat (c :: cs) || containsSeq pat cs

/-- JavaScript `String.prototype.trim` on a character list: strip
whitespace from both ends (used by the chat-input guard
`!inputValue.trim()`). -/
def jsTrim (l : List Char) : List Char :=
  ((l.dropWhile Char.isWhitespace).reverse.dropWhile Char.isWhitespace).reverse

/-- Stable insertion into a list sorted by the Boolean relation `le`. -/
def insertRanked {α : Type} (le : α → α → Bool) (a : α) : List α → List α
  | [] => [a]
  | b :: l => if le a b then a :: b :: l else b :: insertRanked le a l

/-- Stable insertion sort by the Boolean relation `le` (the ranking step
of the vector-index search). -/
def sortRanked {α : Type} (le : α → α → Bool) : List α → List α
  | [] => []
  | a :: l => insertRanked le a (sortRanked le l)

/-! ## Chunker

Modelled from the spec: the chunker implementation
(`backend/utils/text_processing.py` / the Langchain splitter configured by
`CHUNK_SIZE` and `CHUNK_OVERLAP` in the backend README) is not part of the
repository sources.  Spec section 4.1: `chunk(text, chunk_size, overlap)`
produces an ordered sequence of chunks; `overlap < chunk_size` is required
and violating it fails with `ConfigError`; each chunk overlaps its
neighbour; output is deterministic. -/

/-- Configuration error for bad chunking parameters (spec section 7:
fatal, reject at startup). -/
inductive ConfigError : Type
  | overlapGeChunkSize
deriving DecidableEq, Repr

/-- A chunk of a document: its text, the half-open character interval
`[start, stop)` it was cut from, its sequence index within the document,
and an optional page number (spec section 3, data model "Chunk"). -/
structure Chunk : Type where
  text : List Char
  start : Nat
  stop : Nat
  seqIndex : Nat
  pageNumber : Option Nat
deriving DecidableEq, Repr

/-- Modelled from the spec: the boundary computation of the sliding-window
chunker.  Starting at `start`, windows of `size` characters advance by
`step = size - overlap`; the final window is whatever remains once the end
of the text is reached.  `fuel` bounds the recursion; `len + 1` steps
always suffice because every recursive call strictly advances `start`
below `len`. -/
def chunksGo (size step len : Nat) : Nat → Nat → List (Nat × Nat)
  | _, 0 => []
  | start, fuel + 1 =>
    if start + size < len then
      (start, start + size) :: chunksGo size step len (start + step) fuel
    else
      [(start, len)]

/-- Modelled from the spec: `chunk(text, chunk_size, overlap)` (spec
section 4.1).  Fails with `ConfigError` unless `overlap < chunk_size`;
otherwise cuts the text into overlapping windows and tags each chunk with
its boundaries and sequence index (page numbers are absent for plain
text). -/
def chunk (t : List Char) (chunkSize overlap : Nat) : Except ConfigError (List Chunk) :=
  if overlap < chunkSize then
    .ok (((chunksGo chunkSize (chunkSize - overlap) t.length 0 (t.length + 1)).enum).map
      (fun p => ⟨(t.drop p.2.1).take (p.2.2 - p.2.1), p.2.1, p.2.2, p.1, none⟩))
  else
    .error .overlapGeChunkSize

/-- Overlap (in characters) of two half-open intervals, as used to state
the adjacent-chunk overlap guarantee. -/
def boundsOverlap (a b : Nat × Nat) : Nat :=
  min a.2 b.2 - max a.1 b.1

/-! ## Embedding client

Modelled from the spec: the embedding service
(`backend/services/embedding_service.py`, documented in the Google
Generative AI SDK integration guide and spec section 4.2) is not part of
the repository sources.  The service wraps a remote provider producing
fixed-dimension vectors (768 for `models/embedding-001`), batches
requests up to a provider maximum, and tags every request with a task
type. -/

/-- Task types supported by the embedding SDK (integration guide,
"Task Types"). -/
inductive TaskType : Type
  | retrievalDocument
  | retrievalQuery
  | semanticSimilarity
  | classification
  | clustering
deriving DecidableEq, Repr

/-- The configured embedding dimension of `models/embedding-001`
(integration guide, "Model Configuration"). -/
def EMBEDDING_DIMENSION : Nat := 768

/-- An embedding vector.  Components are modelled as exact integers; only
the vector count, order and length matter to the verified properties. -/
abbrev Vec : Type := List Int

/-- Splits a list into consecutive batches of at most `n` elements;
`fuel` bounds the recursion (the input length always suffices when
`1 ≤ n`). -/
def toBatchesAux {α : Type} (n : Nat) : Nat → List α → List (List α)
  | 0, _ => []
  | _, [] => []
  | fuel + 1, a :: l => (a :: l).take n :: toBatchesAux n fuel ((a :: l).drop n)

/-- Modelled from the spec: transparent request batching of the embedding
client (spec section 4.2): texts are split into provider-sized batches and
the resulting vector lists are concatenated in order. -/
def toBatches {α : Type} (n : Nat) (l : List α) : List (List α) :=
  toBatchesAux n l.length l

/-- Modelled from the spec: `embed_documents(texts)` of the embedding
service.  `provider` is the remote embedding model (one embedding per
text inside a batch), `maxBatch` the provider batch limit; the
document-indexing path always uses task type `RETRIEVAL_DOCUMENT`. -/
def embed_documents (provider : TaskType → String → Vec) (maxBatch : Nat)
    (texts : List String) : List Vec :=
  ((toBatches maxBatch texts).map (fun batch =>
    batch.map (provider .retrievalDocument))).flatten

/-! ## Vector index

Modelled from the spec: the ChromaDB-backed vector store used by
`backend/services/document_processor.py` is not part of the repository
sources.  Spec section 4.3: entries pair a vector with chunk metadata and
a document id; `search` ranks by similarity with ties broken by chunk
sequence order; a query against an index with fewer entries than the
requested neighbourhood requires fails with the distinct
`IndexTooSmallError` (the abstraction of the HNSW "contiguous 2D array"
failure); an empty candidate set after document filtering is a valid
empty result, not an error; `upsert` is atomic per document. -/

/-- An entry of the vector index: (vector, chunk metadata, document id)
(spec section 3, data model "Index Entry"). -/
structure IndexEntry : Type where
  docId : String
  seqIndex : Nat
  text : List Char
  pageNumber : Option Nat
  vector : Vec
deriving DecidableEq, Repr

/-- The vector index: configured dimension plus stored entries (spec
section 9: the dimension is explicit configuration). -/
structure VectorIndex : Type where
  dimension : Nat
  entries : List IndexEntry
deriving DecidableEq, Repr

/-- Index-level error kinds (spec section 7): `indexTooSmall` is the
recoverable undersized-query condition, `dimensionMismatch` the fatal
corruption condition; `upsertInterrupted` models the simulated mid-batch
failure used to state upsert atomicity. -/
inductive IndexError : Type
  | indexTooSmall
  | dimensionMismatch
  | upsertInterrupted
deriving DecidableEq, Repr

/-- Inner-product similarity score between a query vector and a stored
vector (spec section 4.3 allows cosine or inner-product similarity). -/
def score (qv v : Vec) : Int :=
  (List.zipWith (fun a b => a * b) qv v).sum

/-- Ranking relation of search results: higher similarity first, ties
broken by lower chunk sequence index (spec section 4.3). -/
def rankLE (qv : Vec) (a b : IndexEntry) : Bool :=
  decide (score qv b.vector < score qv a.vector ∨
    (score qv a.vector = score qv b.vector ∧ a.seqIndex ≤ b.seqIndex))

/-- The candidate set of a search: all entries when no document filter is
given, otherwise only entries whose document id belongs to the filter set
(spec section 4.4: the filter restricts candidates before ranking). -/
def candidatesFor (idx : VectorIndex) (docFilter : Option (List String)) :
    List IndexEntry :=
  match docFilter with
  | none => idx.entries
  | some ds => idx.entries.filter (fun e => ds.contains e.docId)

/-- Modelled from the spec: `search(query_vector, k, document_id_filter?)`
(spec section 4.3).  An empty candidate set (in particular an empty
filter set) is a valid empty result; otherwise a query whose requested
neighbourhood `k` exceeds the number of stored entries fails with the
distinct `IndexTooSmallError`; otherwise the candidates are ranked by
similarity (ties by sequence index) and the top `k` returned with their
scores. -/
def search (idx : VectorIndex) (qv : Vec) (k : Nat)
    (docFilter : Option (List String)) :
    Except IndexError (List (IndexEntry × Int)) :=
  let cands := candidatesFor idx docFilter
  if cands.isEmpty then
    .ok []
  else if idx.entries.length < k then
    .error .indexTooSmall
  else
    .ok (((sortRanked (rankLE qv) cands).map (fun e => (e, score qv e.vector))).take k)

/-- Builds the index entries of one document from its chunks and their
vectors (pairing chunk `i` with vector `i`). -/
def mkEntries (docId : String) (cs : List Chunk) (vs : List Vec) : List IndexEntry :=
  List.zipWith (fun (c : Chunk) (v : Vec) =>
    ⟨docId, c.seqIndex, c.text, c.pageNumber, v⟩) cs vs

/-- Modelled from the spec: `upsert(document_id, chunks, vectors)` (spec
section 4.3), atomic per document: the new entries are staged and become
visible only by the final commit, so an interrupted run (simulated by
`interrupt = some i`, a failure at batch position `i`) leaves the index
unchanged.  A dimension mismatch fails with `DimensionMismatchError` and
also leaves the index unchanged.  Returns the operation result together
with the index state visible afterwards. -/
def upsert (idx : VectorIndex) (docId : String) (cs : List Chunk)
    (vs : List Vec) (interrupt : Option Nat) :
    Except IndexError Unit × VectorIndex :=
  let news := mkEntries docId cs vs
  if news.any (fun e => e.vector.length != idx.dimension) then
    (.error .dimensionMismatch, idx)
  else
    match interrupt with
    | some _ => (.error .upsertInterrupted, idx)
    | none =>
      (.ok (),
        { idx with entries := idx.entries.filter (fun e => !(e.docId == docId)) ++ news })

/-- The entries of one document visible to search: the candidate universe
any search scoped to that document draws from. -/
def visibleEntries (idx : VectorIndex) (docId : String) : List IndexEntry :=
  idx.entries.filter (fun e => e.docId == docId)

/-! ## Retriever

Modelled from the spec: the retriever (the RAG path of
`backend/services/chat_service.py`) is not part of the repository
sources.  Spec section 4.4: embed the query with task type `query`,
over-fetch candidates, merge adjacent chunks of the same document,
truncate to a context budget, and absorb `IndexTooSmallError` or an empty
candidate list into an explicit "no relevant context" result. -/

/-- A retrieved passage with its attribution (spec section 4.4 step 5). -/
structure Passage : Type where
  docId : String
  seqIndex : Nat
  text : List Char
  pageNumber : Option Nat
  score : Int
deriving DecidableEq, Repr

/-- Result of retrieval: either an explicit "no relevant context" marker
or a ranked, deduplicated, budget-bounded context. -/
inductive RetrievalOutcome : Type
  | noRelevantContext
  | context (passages : List Passage)
deriving DecidableEq, Repr

/-- Converts a scored search hit into a passage. -/
def mkPassage (r : IndexEntry × Int) : Passage :=
  ⟨r.1.docId, r.1.seqIndex, r.1.text, r.1.pageNumber, r.2⟩

/-- Modelled from the spec: merge candidates that reference the same
document at adjacent sequence positions into one logical passage (spec
section 4.4 step 3; the exact merge rule is an implementation choice per
spec section 9). -/
def mergeAdjacentPassages : List Passage → List Passage
  | [] => []
  | [p] => [p]
  | a :: b :: rest =>
    if a.docId == b.docId && b.seqIndex == a.seqIndex + 1 then
      mergeAdjacentPassages ({ a with text := a.text ++ b.text } :: rest)
    else
      a :: mergeAdjacentPassages (b :: rest)
termination_by l => l.length
decreasing_by
  · simp
  · simp

/-- Modelled from the spec: truncate the ranked passage list so the total
character budget is not exceeded, dropping lowest-scoring (trailing)
passages first (spec section 4.4 step 4). -/
def truncateToBudget : Nat → List Passage → List Passage
  | _, [] => []
  | budget, p :: ps =>
    if p.text.length ≤ budget then
      p :: truncateToBudget (budget - p.text.length) ps
    else
      []

/-- Over-fetch factor of the retriever: it requests `N = 2k ≥ k`
candidates to allow deduplication (spec section 4.4 step 2). -/
def OVERFETCH_FACTOR : Nat := 2

/-- Context character budget (the backend `MAX_TOKENS` default, 4096). -/
def CONTEXT_CHAR_BUDGET : Nat := 4096

/-- Modelled from the spec: `retrieve(query_text, k, document_id_filter?)`
(spec section 4.4).  `IndexTooSmallError` and an empty candidate list are
both absorbed into the explicit `noRelevantContext` result; only the
fatal corruption error propagates. -/
def retrieve (provider : TaskType → String → Vec) (idx : VectorIndex)
    (qtext : String) (k : Nat) (docFilter : Option (List String)) :
    Except IndexError RetrievalOutcome :=
  let qv := provider .retrievalQuery qtext
  match search idx qv (OVERFETCH_FACTOR * k) docFilter with
  | .error .indexTooSmall => .ok .noRelevantContext
  | .error e => .error e
  | .ok [] => .ok .noRelevantContext
  | .ok rs =>
    .ok (.context (truncateToBudget CONTEXT_CHAR_BUDGET
      (mergeAdjacentPassages (rs.map mkPassage))))

/-! ## Front-end data model (from `src/types/index.ts`) -/

/-- Document lifecycle status, from the `FileData` interface in
`src/types/index.ts`: uploading, processing, ready or error. -/
inductive FileStatus : Type
  | uploading
  | processing
  | ready
  | error
deriving DecidableEq, Repr

/-- Position of a status in the forward lifecycle order
`uploading → processing → (ready | error)`; `ready` and `error` are both
terminal. -/
def statusRank : FileStatus → Nat
  | .uploading => 0
  | .processing => 1
  | .ready => 2
  | .error => 2

/-- File kind, from the `FileData` interface in `src/types/index.ts`. -/
inductive FileKind : Type
  | pdf
  | image
  | text
  | audio
  | video
deriving DecidableEq, Repr

/-- The `FileData` record of `src/types/index.ts` (fields relevant to the
verified logic). -/
structure FileData : Type where
  id : String
  name : String
  kind : FileKind
  size : Nat
  status : FileStatus
  progress : Option Nat
deriving DecidableEq, Repr

/-! ## Chat interface (from `src/components/ChatInterface.tsx`) -/

/-- Message author role. -/
inductive Role : Type
  | user
  | assistant
deriving DecidableEq, Repr

/-- Query scope of a chat message (all documents or selected only). -/
inductive Scope : Type
  | all
  | selected
deriving DecidableEq, Repr

/-- Source attribution attached to an assistant message
(`src/types/index.ts`). -/
structure SourceRef : Type where
  name : String
  page_number : Nat
  display : String
deriving DecidableEq, Repr

/-- Metadata attached to a user message (scope and selected-file count). -/
structure MsgMeta : Type where
  scope : Scope
  selectedFiles : Option Nat
deriving DecidableEq, Repr

/-- Per-stage timing attached to an assistant message (values in
milliseconds; the source carries floating-point seconds, irrelevant to
the verified logic). -/
structure Timing : Type where
  document_analysis : Int
  response_generation : Int
  total_time : Int
deriving DecidableEq, Repr

/-- A chat message (`ChatMessage` in `src/types/index.ts`).  The source
draws message ids from `Math.random()`; ids are modelled as naturals and
are irrelevant to the verified properties. -/
structure ChatMsg : Type where
  id : Nat
  role : Role
  content : List Char
  isTyping : Bool
  sources : Option (List SourceRef)
  metadata : Option MsgMeta
  timing : Option Timing
deriving DecidableEq, Repr

/-- The component state of `ChatInterface` relevant to sending a message:
`messages`, `inputValue`, `isLoading`, `selectedFiles`, `searchScope`. -/
structure ChatState : Type where
  messages : List ChatMsg
  inputValue : List Char
  isLoading : Bool
  selectedFiles : List String
  searchScope : Scope
deriving DecidableEq, Repr

/-- The `document_ids` prepared by `sendMessageToBackend`
(`ChatInterface.tsx` lines 186-194): only when the scope is `'selected'`
and at least one file is selected, the selected file ids are mapped to
file names (falling back to the id when the file is not found);
otherwise no filter is sent. -/
def documentIdsFor (files : List FileData) (scope : Scope)
    (selected : List String) : Option (List String) :=
  if scope = Scope.selected ∧ selected ≠ [] then
    some (selected.map (fun fid =>
      match files.find? (fun f => f.id == fid) with
      | some f => f.name
      | none => fid))
  else
    none

/-- The user message appended by `handleSendMessage` (content from the
input box, metadata describing the query scope). -/
def mkUserMessage (s : ChatState) : ChatMsg :=
  { id := s.messages.length
    role := .user
    content := s.inputValue
    isTyping := false
    sources := none
    metadata := some (if s.searchScope = Scope.selected ∧ s.selectedFiles ≠ [] then
        ⟨Scope.selected, some s.selectedFiles.length⟩
      else
        ⟨Scope.all, none⟩)
    timing := none }

/-- The transient typing indicator appended by `sendMessageToBackend`. -/
def typingMessage (s : ChatState) : ChatMsg :=
  { id := s.messages.length
    role := .assistant
    content := []
    isTyping := true
    sources := none
    metadata := none
    timing := none }

/-- The synchronous prefix of `sendMessageToBackend`: set `isLoading` and
append the typing indicator before the request is issued. -/
def sendMessageBegin (s : ChatState) : ChatState :=
  { s with
    isLoading := true
    messages := s.messages ++ [typingMessage s] }

/-- `handleSendMessage` (`ChatInterface.tsx` lines 280-297): guarded by
`!inputValue.trim() || isLoading || files.length === 0`; when the guard
fires the handler returns immediately; otherwise it appends the user
message, clears the input and starts the backend request.  The Boolean
result records whether a backend request was issued. -/
def handleSendMessage (files : List FileData) (s : ChatState) :
    ChatState × Bool :=
  if jsTrim s.inputValue = [] ∨ s.isLoading = true ∨ files.length = 0 then
    (s, false)
  else
    (sendMessageBegin
      { s with
        messages := s.messages ++ [mkUserMessage s]
        inputValue := [] },
      true)

/-- First HNSW error fragment tested by the catch block of
`sendMessageToBackend` (the misspelling "contigious" is verbatim from the
source). -/
def HNSW_ERROR_FRAGMENT_1 : List Char :=
  "Cannot return the results in a contigious 2D array".toList

/-- Second HNSW error fragment tested by the catch block of
`sendMessageToBackend`. -/
def HNSW_ERROR_FRAGMENT_2 : List Char :=
  "insufficient data in the index".toList

/-- The undersized/corrupted-index detection of the catch block
(`ChatInterface.tsx` lines 261-262). -/
def hnswIndexErrorCheck (errMsg : List Char) : Bool :=
  containsSeq HNSW_ERROR_FRAGMENT_1 errMsg ||
    containsSeq HNSW_ERROR_FRAGMENT_2 errMsg

/-- The graceful message shown when the HNSW index error is detected
(`ChatInterface.tsx` line 263). -/
def HNSW_REBUILD_MESSAGE : List Char :=
  ("The search index needs to be rebuilt. This can happen when there are too few documents or the index becomes corrupted. You can try uploading more documents or contact support to reset the index.").toList

/-- The generic chat error message (`ChatInterface.tsx` line 259). -/
def GENERIC_CHAT_ERROR_MESSAGE : List Char :=
  ("Sorry, I encountered an error while processing your request. Please try again.").toList

/-- The display message chosen by the catch block of
`sendMessageToBackend`. -/
def displayMessageFor (errMsg : List Char) : List Char :=
  if hnswIndexErrorCheck errMsg then HNSW_REBUILD_MESSAGE
  else GENERIC_CHAT_ERROR_MESSAGE

/-- An assistant message carrying plain content (no sources, no timing),
as built by the error path of `sendMessageToBackend`. -/
def assistantMessage (content : List Char) : ChatMsg :=
  { id := 0
    role := .assistant
    content := content
    isTyping := false
    sources := none
    metadata := none
    timing := none }

/-- The catch block of `sendMessageToBackend` (`ChatInterface.tsx` lines
251-277): remove the typing indicator, append an assistant message with
the chosen display text, and clear `isLoading` (the `finally` clause).
The handler is total: every error outcome yields a chat state, never a
propagated exception. -/
def handleChatError (s : ChatState) (errMsg : List Char) : ChatState :=
  { s with
    messages := s.messages.filter (fun m => !m.isTyping) ++
      [assistantMessage (displayMessageFor errMsg)]
    isLoading := false }

/-- A successful backend chat response (`result` in
`sendMessageToBackend`). -/
structure ChatResponse : Type where
  message : List Char
  sources : List SourceRef
  timing : Option Timing
deriving DecidableEq, Repr

/-- The success path of `sendMessageToBackend`: remove the typing
indicator, append the assistant response (sources only when non-empty),
and clear `isLoading`. -/
def handleChatSuccess (s : ChatState) (resp : ChatResponse) : ChatState :=
  { s with
    messages := s.messages.filter (fun m => !m.isTyping) ++
      [{ id := 0
         role := .assistant
         content := resp.message
         isTyping := false
         sources := if resp.sources.length > 0 then some resp.sources else none
         metadata := none
         timing := resp.timing }]
    isLoading := false }

/-- Outcome of the backend fetch in `sendMessageToBackend`: a parsed
response, a non-ok HTTP status (rethrown as an HTTP error message), or a
rejected fetch carrying an error message. -/
inductive BackendOutcome : Type
  | ok (resp : ChatResponse)
  | httpError (status : Nat)
  | fetchFailure (errMsg : List Char)
deriving DecidableEq, Repr

/-- The continuation of `sendMessageToBackend` on the fetch outcome. -/
def sendMessageSettle (s : ChatState) (o : BackendOutcome) : ChatState :=
  match o with
  | .ok resp => handleChatSuccess s resp
  | .httpError status =>
    handleChatError s ("HTTP error! status: ".toList ++ (toString status).toList)
  | .fetchFailure errMsg => handleChatError s errMsg

/-! ## Upload handler (from the `FileUpload` component) -/

/-- Outcome of one iteration of the status-polling loop in
`handleFileUpload`: the fetch failed (caught and ignored), the record is
still processing, the record became ready, or the record reports a
processing error (with its optional `error_message`). -/
inductive PollResult : Type
  | fetchFailed
  | stillProcessing
  | readyStatus
  | errorStatus (msg : Option String)
deriving DecidableEq, Repr

/-- How the polling loop of `handleFileUpload` ended: only `ready`
breaks out of the loop early, everything else runs into the attempt
limit. -/
inductive LoopOutcome : Type
  | completedReady
  | timedOut
deriving DecidableEq, Repr

/-- `maxAttempts` in `handleFileUpload`: at most 60 polls of 5 seconds
each (about 5 minutes). -/
def MAX_POLL_ATTEMPTS : Nat := 60

/-- The `while (attempts < maxAttempts)` polling loop of
`handleFileUpload`: each iteration inspects the backend file record and
only `ready` breaks out of the loop.  A record with status `error` makes
the loop body throw, but that throw happens inside the per-iteration
`try` whose `catch` merely logs it, so the error status is swallowed and
polling continues exactly like a failed fetch or a still-processing
record; the record's `error_message` is never surfaced.  Exhausting the
attempts times out. -/
def pollLoop (polls : Nat → PollResult) : Nat → Nat → LoopOutcome
  | _, 0 => .timedOut
  | attempt, fuel + 1 =>
    match polls attempt with
    | .readyStatus => .completedReady
    | _ => pollLoop polls (attempt + 1) fuel

/-- Observable outcome of `handleFileUpload` for one file: the successive
distinct status values assigned to the document, its final status,
whether the file was added to the main file list (`onFileUpload`), and
the error message recorded on failure. -/
structure UploadOutcome : Type where
  statusTrace : List FileStatus
  finalStatus : FileStatus
  addedToMainList : Bool
  errorMessage : Option String
deriving DecidableEq, Repr

/-- `handleFileUpload` of the `FileUpload` component: upload the file,
mark it `uploading` then `processing`, poll the backend status up to
`MAX_POLL_ATTEMPTS` times, and finish with `ready` (adding the file to
the main list) or, when the loop never saw `ready`, with the
`Processing timed out` throw caught by the outer handler, which records
status `error` with that message.  `uploadOk` is whether the initial
upload request succeeded; `polls` gives the backend status answer for
each poll attempt. -/
def handleFileUpload (uploadOk : Bool) (polls : Nat → PollResult) :
    UploadOutcome :=
  if uploadOk then
    match pollLoop polls 0 MAX_POLL_ATTEMPTS with
    | .completedReady =>
      ⟨[.uploading, .processing, .ready], .ready, true, none⟩
    | .timedOut =>
      ⟨[.uploading, .processing, .error], .error, false,
        some "Processing timed out"⟩
  else
    ⟨[.uploading, .error], .error, false, some "Upload failed"⟩

/-! ## Theorems -/

theorem chainB_cons_cons {α : Type} (R : α → α → Bool) (a b : α) (l : List α) :
    chainB R (a :: b :: l) = (R a b && chainB R (b :: l)) := rfl

theorem mem_insertRanked {α : Type} (le : α → α → Bool) (a x : α) (l : List α) :
    x ∈ insertRanked le a l ↔ x = a ∨ x ∈ l := by
  induction l with
  | nil => simp [insertRanked]
  | cons b l ih =>
    simp only [insertRanked]
    split
    · simp [or_comm, or_left_comm]
    · simp [ih]
      tauto

theorem mem_sortRanked {α : Type} (le : α → α → Bool) (x : α) (l : List α) :
    x ∈ sortRanked le l ↔ x ∈ l := by
  induction l with
  | nil => simp [sortRanked]
  | cons a l ih => simp [sortRanked, mem_insertRanked, ih]

theorem chunk_bounds (t : List Char) (size ov : Nat) (cs : List Chunk)
    (h : chunk t size ov = .ok cs) :
    cs.map (fun c => (c.start, c.stop)) =
      chunksGo size (size - ov) t.length 0 (t.length + 1) := by
  unfold chunk at h
  split at h
  · cases h
    rw [List.map_map]
    have he : ((fun c : Chunk => (c.start, c.stop)) ∘
        (fun p : Nat × (Nat × Nat) =>
          (⟨(t.drop p.2.1).take (p.2.2 - p.2.1), p.2.1, p.2.2, p.1, none⟩ : Chunk))) =
        Prod.snd := by
      funext p
      rfl
    rw [he, List.enum_map_snd]
  · cases h

theorem chainB_chunksGo (size step len ov : Nat) (hso : step + ov = size) :
    ∀ (fuel start : Nat),
      chainB (fun a b => decide (ov ≤ boundsOverlap a b))
        (chunksGo size step len start fuel) = true := by
  intro fuel
  induction fuel with
  | zero => intro start; rfl
  | succ n ih =>
    intro start
    show chainB _ (chunksGo size step len start (n + 1)) = true
    unfold chunksGo
    split
    · rename_i hlt
      match n, ih with
      | 0, _ => rfl
      | m + 1, ih =>
        have htail := ih (start + step)
        show chainB _ ((start, start + size) :: chunksGo size step len (start + step) (m + 1)) = true
        unfold chunksGo
        split
        · rw [chainB_cons_cons]
          unfold chunksGo at htail
          split at htail
          · rw [Bool.and_eq_true]
            refine ⟨?_, htail⟩
            simp only [decide_eq_true_eq, boundsOverlap]
            omega
          · omega
        · rw [chainB_cons_cons]
          unfold chunksGo at htail
          split at htail
          · omega
          · rw [Bool.and_eq_true]
            refine ⟨?_, htail⟩
            simp only [decide_eq_true_eq, boundsOverlap]
            omega
    · rfl

/-- C5: chunking a 1200-character text with `chunk_size = 500` and
`overlap = 50` yields exactly the three chunks `[0,500)`, `[450,950)`,
`[900,1200)`, and for every text the adjacent chunks produced by this
configuration overlap by at least 50 characters. -/
theorem chunk_1200_three_chunks_and_overlap :
    (∀ (t : List Char) (cs : List Chunk), t.length = 1200 →
      chunk t 500 50 = .ok cs →
      cs.map (fun c => (c.start, c.stop)) = [(0, 500), (450, 950), (900, 1200)])
    ∧ (∀ (t : List Char) (cs : List Chunk), chunk t 500 50 = .ok cs →
      chainB (fun a b => decide (50 ≤ boundsOverlap a b))
        (cs.map (fun c => (c.start, c.stop))) = true) := by
  constructor
  · intro t cs hlen h
    rw [chunk_bounds t 500 50 cs h, hlen]
    decide
  · intro t cs h
    rw [chunk_bounds t 500 50 cs h]
    exact chainB_chunksGo 500 450 t.length 50 rfl (t.length + 1) 0

set_option maxRecDepth 100000 in
theorem chunk_1200_three_chunks_and_overlap_witness :
    (List.replicate 1200 'a').length = 1200
    ∧ List.map (fun c : Chunk => (c.start, c.stop))
        [⟨List.replicate 500 'a', 0, 500, 0, none⟩,
         ⟨List.replicate 500 'a', 450, 950, 1, none⟩,
         ⟨List.replicate 300 'a', 900, 1200, 2, none⟩]
        = [(0, 500), (450, 950), (900, 1200)] :=
  ⟨by decide,
    chunk_1200_three_chunks_and_overlap.1 (List.replicate 1200 'a') _ (by decide) (by rfl)⟩

/-- C6: `chunk` fails with `ConfigError` if and only if
`overlap >= chunk_size`; every configuration with `overlap < chunk_size`
succeeds. -/
theorem chunk_configError_iff (t : List Char) (size ov : Nat) :
    chunk t size ov = .error .overlapGeChunkSize ↔ size ≤ ov := by
  unfold chunk
  split
  · rename_i h
    constructor
    · intro hc
      cases hc
    · intro hle
      omega
  · rename_i h
    constructor
    · intro _
      omega
    · intro _
      rfl

theorem chunk_configError_iff_witness :
    chunk [] 5 7 = .error .overlapGeChunkSize :=
  (chunk_configError_iff [] 5 7).mpr (by decide)

/-- C7: chunking is deterministic: identical text and identical
configuration produce identical chunk sequences with identical
boundaries. -/
theorem chunk_deterministic (t₁ t₂ : List Char) (s₁ s₂ o₁ o₂ : Nat)
    (ht : t₁ = t₂) (hs : s₁ = s₂) (ho : o₁ = o₂) :
    chunk t₁ s₁ o₁ = chunk t₂ s₂ o₂ := by
  subst ht hs ho
  rfl

theorem chunk_deterministic_witness :
    chunk "abcd".toList 3 1 = chunk "abcd".toList 3 1 :=
  chunk_deterministic "abcd".toList "abcd".toList 3 3 1 1 rfl rfl rfl

theorem toBatchesAux_join {α : Type} (n : Nat) (hn : 1 ≤ n) :
    ∀ (fuel : Nat) (l : List α), l.length ≤ fuel →
      (toBatchesAux n fuel l).flatten = l := by
  intro fuel
  induction fuel with
  | zero =>
    intro l hl
    rw [List.length_eq_zero.mp (Nat.le_zero.mp hl)]
    rfl
  | succ m ih =>
    intro l hl
    match l with
    | [] => rfl
    | a :: l =>
      show ((a :: l).take n :: toBatchesAux n m ((a :: l).drop n)).flatten = a :: l
      rw [List.flatten_cons, ih ((a :: l).drop n)
          (by simp only [List.length_drop, List.length_cons] at hl ⊢; omega),
        List.take_append_drop]

theorem embed_documents_eq_map (provider : TaskType → String → Vec)
    (maxBatch : Nat) (hn : 1 ≤ maxBatch) (texts : List String) :
    embed_documents provider maxBatch texts =
      texts.map (provider .retrievalDocument) := by
  unfold embed_documents
  rw [← List.map_flatten]
  unfold toBatches
  rw [toBatchesAux_join maxBatch hn texts.length texts le_rfl]

/-- C2: for every non-empty sequence of input texts, `embed_documents`
returns exactly as many vectors as there are texts, the i-th vector is
the provider embedding of the i-th text, and (whenever the provider
honours the model contract) every vector has the configured dimension
768. -/
theorem embed_documents_count_order_dimension
    (provider : TaskType → String → Vec) (maxBatch : Nat)
    (texts : List String) (hn : 1 ≤ maxBatch) (_hne : texts ≠ [])
    (hdim : ∀ s, (provider .retrievalDocument s).length = EMBEDDING_DIMENSION) :
    (embed_documents provider maxBatch texts).length = texts.length
    ∧ (∀ i : Nat, (embed_documents provider maxBatch texts)[i]? =
        texts[i]?.map (provider .retrievalDocument))
    ∧ (∀ v ∈ embed_documents provider maxBatch texts,
        v.length = EMBEDDING_DIMENSION) := by
  rw [embed_documents_eq_map provider maxBatch hn texts]
  refine ⟨List.length_map texts _, fun i => List.getElem?_map _ texts i, ?_⟩
  intro v hv
  obtain ⟨s, _, rfl⟩ := List.mem_map.mp hv
  exact hdim s

theorem embed_documents_count_order_dimension_witness :
    (embed_documents (fun _ _ => List.replicate 768 (0 : Int)) 100
        ["alpha", "beta", "gamma"]).length = 3
    ∧ (∀ v ∈ embed_documents (fun _ _ => List.replicate 768 (0 : Int)) 100
        ["alpha", "beta", "gamma"], v.length = EMBEDDING_DIMENSION) :=
  ⟨(embed_documents_count_order_dimension _ 100 _ (by decide) (List.cons_ne_nil _ _)
      (fun _ => by rw [List.length_replicate]; rfl)).1,
    (embed_documents_count_order_dimension _ 100 _ (by decide) (List.cons_ne_nil _ _)
      (fun _ => by rw [List.length_replicate]; rfl)).2.2⟩

theorem mkEntries_docId (D : String) :
    ∀ (cs : List Chunk) (vs : List Vec) (e : IndexEntry),
      e ∈ mkEntries D cs vs → e.docId = D := by
  intro cs
  induction cs with
  | nil =>
    intro vs e h
    simp [mkEntries] at h
  | cons c cs ih =>
    intro vs e h
    cases vs with
    | nil => simp [mkEntries] at h
    | cons v vs =>
      simp only [mkEntries, List.zipWith_cons_cons, List.mem_cons] at h
      rcases h with h | h
      · rw [h]
      · exact ih vs e h

theorem filter_not_filter {α : Type} (p : α → Bool) (l : List α) :
    (l.filter (fun a => !(p a))).filter p = [] := by
  rw [List.filter_filter]
  apply List.filter_eq_nil_iff.mpr
  intro a _
  cases p a <;> simp

theorem search_ok_mem (idx : VectorIndex) (qv : Vec) (k : Nat)
    (docFilter : Option (List String)) (rs : List (IndexEntry × Int))
    (h : search idx qv k docFilter = .ok rs) :
    ∀ r ∈ rs, r.1 ∈ candidatesFor idx docFilter := by
  intro r hr
  simp only [search] at h
  split at h
  · cases h
    cases hr
  · split at h
    · cases h
    · cases h
      have h1 := List.mem_of_mem_take hr
      obtain ⟨e, he, rfl⟩ := List.mem_map.mp h1
      exact (mem_sortRanked _ _ _).mp he

/-- C3: every chunk returned by a search with a document filter belongs
to a document of the filter set; a search with the empty filter set
returns the valid empty result (never an error); and the empty filter is
distinguishable from passing no filter at all, which searches all
documents. -/
theorem search_document_filter_correct :
    (∀ (idx : VectorIndex) (qv : Vec) (k : Nat) (ds : List String)
        (rs : List (IndexEntry × Int)),
      search idx qv k (some ds) = .ok rs → ∀ r ∈ rs, r.1.docId ∈ ds)
    ∧ (∀ (idx : VectorIndex) (qv : Vec) (k : Nat),
        search idx qv k (some []) = .ok [])
    ∧ (∀ (idx : VectorIndex), candidatesFor idx none = idx.entries)
    ∧ (search ⟨1, [⟨"doc1", 0, ['x'], none, [1]⟩]⟩ [1] 1 (some []) = .ok []
      ∧ search ⟨1, [⟨"doc1", 0, ['x'], none, [1]⟩]⟩ [1] 1 none ≠
          search ⟨1, [⟨"doc1", 0, ['x'], none, [1]⟩]⟩ [1] 1 (some [])) := by
  refine ⟨?_, ?_, fun _ => rfl, rfl, ?_⟩
  · intro idx qv k ds rs h r hr
    have hc := search_ok_mem idx qv k (some ds) rs h r hr
    simp only [candidatesFor] at hc
    rw [List.mem_filter] at hc
    simpa using hc.2
  · intro idx qv k
    simp [search, candidatesFor]
  · intro h
    rw [show search ⟨1, [⟨"doc1", 0, ['x'], none, [1]⟩]⟩ [1] 1 none
        = .ok [(⟨"doc1", 0, ['x'], none, [1]⟩, (1 : Int))] from rfl] at h
    rw [show search ⟨1, [⟨"doc1", 0, ['x'], none, [1]⟩]⟩ [1] 1 (some [])
        = .ok [] from rfl] at h
    injection h with h2
    cases h2

theorem search_document_filter_correct_witness :
    search ⟨1, [⟨"doc1", 0, ['x'], none, [1]⟩]⟩ [1] 1 (some []) = .ok [] :=
  search_document_filter_correct.2.1 ⟨1, [⟨"doc1", 0, ['x'], none, [1]⟩]⟩ [1] 1

/-- C4: upsert is atomic per document: for a document with no prior
entries, after any run of `upsert` (including one interrupted mid-batch
and one rejected for a dimension mismatch) the entries of that document
visible to search are either the complete new batch or none at all; and
every search hit scoped to that document is drawn from that visible
set. -/
theorem upsert_atomic_per_document :
    (∀ (idx : VectorIndex) (D : String) (cs : List Chunk) (vs : List Vec)
        (intr : Option Nat), visibleEntries idx D = [] →
      visibleEntries (upsert idx D cs vs intr).2 D = mkEntries D cs vs
      ∨ visibleEntries (upsert idx D cs vs intr).2 D = [])
    ∧ (∀ (idx : VectorIndex) (D : String) (cs : List Chunk) (vs : List Vec)
        (intr : Option Nat) (qv : Vec) (k : Nat) (rs : List (IndexEntry × Int)),
      search (upsert idx D cs vs intr).2 qv k (some [D]) = .ok rs →
      ∀ r ∈ rs, r.1 ∈ visibleEntries (upsert idx D cs vs intr).2 D) := by
  constructor
  · intro idx D cs vs intr hfresh
    cases intr with
    | some i =>
      right
      simp only [upsert]
      split
      · exact hfresh
      · exact hfresh
    | none =>
      simp only [upsert]
      split
      · right
        exact hfresh
      · left
        show ((idx.entries.filter (fun e => !(e.docId == D)) ++
          mkEntries D cs vs).filter (fun e => e.docId == D)) = mkEntries D cs vs
        rw [List.filter_append, filter_not_filter, List.nil_append]
        apply List.filter_eq_self.mpr
        intro e he
        rw [beq_iff_eq]
        exact mkEntries_docId D cs vs e he
  · intro idx D cs vs intr qv k rs h r hr
    have hc := search_ok_mem _ qv k (some [D]) rs h r hr
    simp only [candidatesFor] at hc
    rw [List.mem_filter] at hc
    unfold visibleEntries
    rw [List.mem_filter]
    refine ⟨hc.1, ?_⟩
    have : r.1.docId ∈ [D] := by simpa using hc.2
    rw [beq_iff_eq]
    simpa using this

theorem upsert_atomic_per_document_witness :
    visibleEntries (upsert ⟨1, []⟩ "docA"
        [⟨['h', 'i'], 0, 2, 0, none⟩] [[1]] (some 0)).2 "docA" =
      mkEntries "docA" [⟨['h', 'i'], 0, 2, 0, none⟩] [[1]]
    ∨ visibleEntries (upsert ⟨1, []⟩ "docA"
        [⟨['h', 'i'], 0, 2, 0, none⟩] [[1]] (some 0)).2 "docA" = [] :=
  upsert_atomic_per_document.1 ⟨1, []⟩ "docA"
    [⟨['h', 'i'], 0, 2, 0, none⟩] [[1]] (some 0) rfl

theorem search_undersized (idx : VectorIndex) (qv : Vec) (k : Nat)
    (docFilter : Option (List String)) (hk : idx.entries.length < k)
    (hne : (candidatesFor idx docFilter).isEmpty = false) :
    search idx qv k docFilter = .error .indexTooSmall := by
  simp only [search]
  rw [if_neg (by rw [hne]; exact Bool.false_ne_true), if_pos hk]

/-- C1: a query against an index with fewer entries than the requested
neighbourhood requires is surfaced as the distinct `IndexTooSmallError`;
the retriever absorbs it (and the zero-candidate case) into the explicit
"no relevant context" result instead of propagating an error; and the
chat front end turns a reported HNSW index error into a graceful
assistant message with the loading state cleared, never a propagated
exception. -/
theorem undersized_index_graceful :
    (∀ (idx : VectorIndex) (qv : Vec) (k : Nat) (f : Option (List String)),
      idx.entries.length < k → (candidatesFor idx f).isEmpty = false →
      search idx qv k f = .error .indexTooSmall)
    ∧ (∀ (provider : TaskType → String → Vec) (idx : VectorIndex)
        (qtext : String) (k : Nat) (f : Option (List String)),
      idx.entries.length < k →
      retrieve provider idx qtext k f = .ok .noRelevantContext)
    ∧ (∀ (s : ChatState) (errMsg : List Char),
      hnswIndexErrorCheck errMsg = true →
      (handleChatError s errMsg).isLoading = false ∧
      (handleChatError s errMsg).messages =
        s.messages.filter (fun m => !m.isTyping) ++
          [assistantMessage HNSW_REBUILD_MESSAGE]) := by
  refine ⟨fun idx qv k f hk hne => search_undersized idx qv k f hk hne, ?_, ?_⟩
  · intro provider idx qtext k f hk
    simp only [retrieve]
    cases hc : (candidatesFor idx f).isEmpty with
    | true =>
      have hs : search idx (provider .retrievalQuery qtext)
          (OVERFETCH_FACTOR * k) f = .ok [] := by
        simp only [search]
        rw [if_pos hc]
      rw [hs]
    | false =>
      have h2k : idx.entries.length < OVERFETCH_FACTOR * k := by
        simp only [OVERFETCH_FACTOR]
        omega
      rw [search_undersized idx (provider .retrievalQuery qtext)
        (OVERFETCH_FACTOR * k) f h2k hc]
  · intro s errMsg h
    refine ⟨rfl, ?_⟩
    simp only [handleChatError, displayMessageFor, h, if_true]

theorem undersized_index_graceful_witness :
    search ⟨1, [⟨"d", 0, ['x'], none, [1]⟩]⟩ [1] 2 none = .error .indexTooSmall
    ∧ retrieve (fun _ _ => [1]) ⟨1, [⟨"d", 0, ['x'], none, [1]⟩]⟩ "q" 2 none =
        .ok .noRelevantContext
    ∧ (handleChatError ⟨[], [], false, [], .all⟩
        HNSW_ERROR_FRAGMENT_2).isLoading = false :=
  ⟨undersized_index_graceful.1 ⟨1, [⟨"d", 0, ['x'], none, [1]⟩]⟩ [1] 2 none
      (by decide) rfl,
    undersized_index_graceful.2.1 (fun _ _ => [1])
      ⟨1, [⟨"d", 0, ['x'], none, [1]⟩]⟩ "q" 2 none (by decide),
    (undersized_index_graceful.2.2 ⟨[], [], false, [], .all⟩
      HNSW_ERROR_FRAGMENT_2 (by decide)).1⟩

/-- C8: the document status trace produced by the upload handler starts
at `uploading`, every transition moves strictly forward in the lifecycle
order `uploading → processing → (ready | error)`, and `ready` occurs only
as the final status (nothing ever transitions out of `ready`). -/
theorem document_status_forward_only (u : Bool) (polls : Nat → PollResult) :
    (handleFileUpload u polls).statusTrace.head? = some .uploading
    ∧ chainB (fun a b => decide (statusRank a < statusRank b))
        (handleFileUpload u polls).statusTrace = true
    ∧ FileStatus.ready ∉ (handleFileUpload u polls).statusTrace.dropLast := by
  cases u with
  | false =>
    refine ⟨rfl, rfl, ?_⟩
    show FileStatus.ready ∉
      ([FileStatus.uploading, FileStatus.error] : List FileStatus).dropLast
    decide
  | true =>
    cases hp : pollLoop polls 0 MAX_POLL_ATTEMPTS with
    | completedReady =>
      simp only [handleFileUpload, hp, if_true]
      exact ⟨rfl, rfl, by decide⟩
    | timedOut =>
      simp only [handleFileUpload, hp, if_true]
      exact ⟨rfl, rfl, by decide⟩

theorem pollLoop_timedOut (polls : Nat → PollResult) :
    ∀ (fuel a : Nat),
      (∀ i, i < fuel →
        polls (a + i) = .fetchFailed ∨ polls (a + i) = .stillProcessing) →
      pollLoop polls a fuel = .timedOut := by
  intro fuel
  induction fuel with
  | zero => intro a _; rfl
  | succ n ih =>
    intro a h
    have h0 := h 0 (Nat.succ_pos n)
    rw [Nat.add_zero] at h0
    have htail : pollLoop polls (a + 1) n = .timedOut :=
      ih (a + 1) (fun i hi => by
        have hh := h (i + 1) (by omega)
        rwa [show a + (i + 1) = (a + 1) + i by omega] at hh)
    show pollLoop polls a (n + 1) = .timedOut
    unfold pollLoop
    rcases h0 with h0 | h0 <;> rw [h0] <;> exact htail

theorem pollLoop_congr :
    ∀ (fuel a : Nat) (polls polls' : Nat → PollResult),
      (∀ i, a ≤ i → i < a + fuel → polls i = polls' i) →
      pollLoop polls a fuel = pollLoop polls' a fuel := by
  intro fuel
  induction fuel with
  | zero => intro a _ _ _; rfl
  | succ n ih =>
    intro a polls polls' h
    show pollLoop polls a (n + 1) = pollLoop polls' a (n + 1)
    unfold pollLoop
    rw [h a le_rfl (by omega)]
    cases hpa : polls' a with
    | readyStatus => rfl
    | errorStatus m =>
      exact ih (a + 1) polls polls' (fun i h1 h2 => h i (by omega) (by omega))
    | fetchFailed =>
      exact ih (a + 1) polls polls' (fun i h1 h2 => h i (by omega) (by omega))
    | stillProcessing =>
      exact ih (a + 1) polls polls' (fun i h1 h2 => h i (by omega) (by omega))

/-- C9: the status-polling loop of the upload handler inspects at most 60
poll answers; an upload whose backend status never becomes ready or error
within those 60 polls ends with status `error` and the message
`Processing timed out`; and the file is added to the main file list only
when its status became `ready`. -/
theorem upload_polling_bounded_and_timeout :
    (∀ polls : Nat → PollResult,
      (∀ i, i < MAX_POLL_ATTEMPTS →
        polls i = .fetchFailed ∨ polls i = .stillProcessing) →
      handleFileUpload true polls =
        ⟨[.uploading, .processing, .error], .error, false,
          some "Processing timed out"⟩)
    ∧ (∀ (u : Bool) (polls polls' : Nat → PollResult),
      (∀ i, i < MAX_POLL_ATTEMPTS → polls i = polls' i) →
      handleFileUpload u polls = handleFileUpload u polls')
    ∧ (∀ (u : Bool) (polls : Nat → PollResult),
      (handleFileUpload u polls).addedToMainList = true →
      (handleFileUpload u polls).finalStatus = .ready ∧
      (handleFileUpload u polls).statusTrace.getLast? = some .ready) := by
  refine ⟨?_, ?_, ?_⟩
  · intro polls h
    have hp : pollLoop polls 0 MAX_POLL_ATTEMPTS = .timedOut :=
      pollLoop_timedOut polls MAX_POLL_ATTEMPTS 0 (fun i hi => by
        have hh := h i hi
        rwa [Nat.zero_add])
    simp only [handleFileUpload, hp, if_true]
  · intro u polls polls' h
    cases u with
    | false => rfl
    | true =>
      have hpp : pollLoop polls 0 MAX_POLL_ATTEMPTS =
          pollLoop polls' 0 MAX_POLL_ATTEMPTS :=
        pollLoop_congr MAX_POLL_ATTEMPTS 0 polls polls'
          (fun i h1 h2 => h i (by omega))
      simp only [handleFileUpload, hpp]
  · intro u polls h
    cases u with
    | false => exact Bool.noConfusion h
    | true =>
      cases hp : pollLoop polls 0 MAX_POLL_ATTEMPTS with
      | completedReady =>
        constructor <;> simp [handleFileUpload, hp]
      | timedOut =>
        simp only [handleFileUpload, hp, if_true] at h
        exact Bool.noConfusion h

theorem upload_polling_bounded_and_timeout_witness :
    handleFileUpload true (fun _ => PollResult.stillProcessing) =
      ⟨[.uploading, .processing, .error], .error, false,
        some "Processing timed out"⟩ :=
  upload_polling_bounded_and_timeout.1 (fun _ => PollResult.stillProcessing)
    (fun _ _ => Or.inr rfl)

/-- C10: sending a chat message is a guarded no-op: whenever the input is
empty or whitespace-only, or a request is still loading, or no files are
uploaded, `handleSendMessage` leaves the chat state unchanged and issues
no backend request. -/
theorem handleSendMessage_guarded_noop (files : List FileData) (s : ChatState)
    (h : jsTrim s.inputValue = [] ∨ s.isLoading = true ∨ files = []) :
    handleSendMessage files s = (s, false) := by
  unfold handleSendMessage
  rw [if_pos]
  rcases h with h | h | h
  · exact Or.inl h
  · exact Or.inr (Or.inl h)
  · refine Or.inr (Or.inr ?_)
    rw [h]
    rfl

theorem handleSendMessage_guarded_noop_witness :
    handleSendMessage [] ⟨[], "hello".toList, false, [], Scope.all⟩ =
      (⟨[], "hello".toList, false, [], Scope.all⟩, false) :=
  handleSendMessage_guarded_noop [] ⟨[], "hello".toList, false, [], Scope.all⟩
    (Or.inr (Or.inr rfl))

end Ragify
